import Mathlib

/-!
Verification of the worker-pool core of `rust-get-started` (chap20/hellohello)
against its specification.

The pool library itself (`hellohello::ThreadPool`, its Worker and the shared
mpsc channel) is referenced from `src/chap20/hellohello/src/main.rs` but its
source file is not present in the repository snapshot; the Job Queue, Worker
and Pool below are therefore modelled from the specification's contracts
(sections 3, 4.1-4.3, 5 of the spec).  The surrounding application
(`main`, `handle_connection`) is embedded directly from
`src/chap20/hellohello/src/main.rs`.
-/

namespace Hellohello

/-- Modelled from the spec: the error returned by `enqueue` on a closed
queue (spec 4.1 / 7: submission after shutdown fails with `Closed`). -/
inductive QueueError where
  | Closed
  deriving DecidableEq

/-- Modelled from the spec: result of `dequeue` — either a job or the
closed-signal (spec 4.1). -/
inductive DequeueResult (J : Type) where
  | job (j : J)
  | closedSignal
  deriving DecidableEq

/-- Modelled from the spec: the Job Queue — a FIFO buffer of jobs plus a
closed flag (spec 2, 4.1; the missing `hellohello` library realises it as an
mpsc channel with the receiver shared under a mutex). The head of `buf` is
the next job to be delivered. -/
structure JobQueue (J : Type) where
  buf : List J
  closed : Bool
  deriving DecidableEq

/-- Modelled from the spec: `enqueue(job)` — fails with `Closed` on a closed
queue, otherwise appends the job at the tail, preserving FIFO (spec 4.1). -/
def JobQueue.enqueue {J : Type} (q : JobQueue J) (j : J) :
    Except QueueError (JobQueue J) :=
  if q.closed then Except.error QueueError.Closed
  else Except.ok { buf := q.buf ++ [j], closed := q.closed }

/-- Modelled from the spec: `dequeue()` — delivers the front job if one is
queued; on an empty closed queue returns the closed-signal; on an empty open
queue blocks, modelled as `none` (spec 4.1). -/
def JobQueue.dequeue {J : Type} (q : JobQueue J) :
    Option (DequeueResult J × JobQueue J) :=
  match q.buf with
  | j :: rest => some (DequeueResult.job j, { buf := rest, closed := q.closed })
  | [] =>
    if q.closed then some (DequeueResult.closedSignal, q) else none

/-- Modelled from the spec: `close()` — marks the queue closed; already
queued jobs stay in the buffer to be drained (spec 4.1). -/
def JobQueue.close {J : Type} (q : JobQueue J) : JobQueue J :=
  { buf := q.buf, closed := true }

/-- Modelled from the spec: Worker state machine — Running, or the terminal
Stopped state reached on observing the closed-signal (spec 4.2). -/
inductive WorkerState where
  | Running
  | Stopped
  deriving DecidableEq

/-- Modelled from the spec: a Worker has a stable identity (index) and a
state (spec 3); its shared handle to the queue's receiving side is the single
`queue` field of the enclosing pool/system state. -/
structure Worker where
  id : Nat
  state : WorkerState
  deriving DecidableEq

/-- Modelled from the spec: construction-time failure of the pool
(spec 7: `InvalidConfiguration`). -/
inductive PoolError where
  | InvalidConfiguration
  deriving DecidableEq

/-- Modelled from the spec: the Pool owns the queue's sending side and the
workers (spec 3, 4.3). -/
structure Pool (J : Type) where
  workers : List Worker
  queue : JobQueue J
  deriving DecidableEq

/-- Modelled from the spec: `new(size)` — fails (panics) if `size == 0`,
otherwise spawns `size` Workers immediately, each Running, sharing the single
empty open queue (spec 4.3). -/
def ThreadPool.new (J : Type) (size : Nat) : Except PoolError (Pool J) :=
  if size = 0 then Except.error PoolError.InvalidConfiguration
  else Except.ok
    { workers := (List.range size).map (fun i => { id := i, state := WorkerState.Running }),
      queue := { buf := [], closed := false } }

/-- Modelled from the spec: dynamic status of one worker thread — blocked in
`dequeue` (idle), executing a job (busy), or terminated after observing the
closed-signal (stopped) (spec 4.2, 5). -/
inductive WStatus (J : Type) where
  | idle
  | busy (j : J)
  | stopped
  deriving DecidableEq

/-- Modelled from the spec: the interleaving state of the whole system —
the queue, the N worker threads, the logs of successfully submitted,
dequeued and invoked jobs (each invocation records the worker index, the job
and whether its execution failed), and whether shutdown has returned
(spec 5). -/
structure Sys (J : Type) where
  queue : JobQueue J
  workers : List (WStatus J)
  submitted : List J
  dequeued : List J
  invoked : List (Nat × J × Bool)
  shutdownDone : Bool
  deriving DecidableEq

/-- Modelled from the spec: initial state right after `new(n)` — empty open
queue, `n` workers blocked in `dequeue`, nothing submitted (spec 4.3). -/
def initSys (J : Type) (n : Nat) : Sys J :=
  { queue := { buf := [], closed := false },
    workers := List.replicate n WStatus.idle,
    submitted := [], dequeued := [], invoked := [],
    shutdownDone := false }

/-- Modelled from the spec: one atomic step of any of the N+1 threads,
parameterised by which jobs fail when executed (spec 5).  `submit` is the
producer enqueuing; `dequeueJob` is a worker atomically taking the front job
under the mutex; `observeClosed` is a worker receiving the closed-signal and
stopping; `finish` is a worker completing a job invocation (successfully or
by a contained failure) and looping back to `dequeue`; `close` is shutdown
closing the queue; `shutdownReturn` is shutdown returning, allowed only once
every worker has stopped. -/
inductive Step {J : Type} (fails : J → Bool) : Sys J → Sys J → Prop where
  | submit (s : Sys J) (j : J) (q' : JobQueue J) :
      s.queue.enqueue j = Except.ok q' →
      Step fails s { s with queue := q', submitted := s.submitted ++ [j] }
  | dequeueJob (s : Sys J) (w : Nat) (j : J) (q' : JobQueue J) :
      s.workers.get? w = some WStatus.idle →
      s.queue.dequeue = some (DequeueResult.job j, q') →
      Step fails s { s with queue := q',
                            workers := s.workers.set w (WStatus.busy j),
                            dequeued := s.dequeued ++ [j] }
  | observeClosed (s : Sys J) (w : Nat) :
      s.workers.get? w = some WStatus.idle →
      s.queue.dequeue = some (DequeueResult.closedSignal, s.queue) →
      Step fails s { s with workers := s.workers.set w WStatus.stopped }
  | finish (s : Sys J) (w : Nat) (j : J) :
      s.workers.get? w = some (WStatus.busy j) →
      Step fails s { s with workers := s.workers.set w WStatus.idle,
                            invoked := s.invoked ++ [(w, j, fails j)] }
  | close (s : Sys J) :
      Step fails s { s with queue := s.queue.close }
  | shutdownReturn (s : Sys J) :
      s.queue.closed = true →
      (∀ st ∈ s.workers, st = WStatus.stopped) →
      s.shutdownDone = false →
      Step fails s { s with shutdownDone := true }

/-- Modelled from the spec: the states reachable from a fresh pool of `n`
workers under arbitrary interleaving of the N+1 threads (spec 5). -/
def Reachable {J : Type} (fails : J → Bool) (n : Nat) (s : Sys J) : Prop :=
  Relation.ReflTransGen (Step fails) (initSys J n) s

/-- The jobs currently being executed by some worker. -/
def busyOf {J : Type} : List (WStatus J) → List J
  | [] => []
  | WStatus.busy j :: rest => j :: busyOf rest
  | WStatus.idle :: rest => busyOf rest
  | WStatus.stopped :: rest => busyOf rest

/-- The jobs whose invocation has completed, in completion order. -/
def invokedJobs {J : Type} (s : Sys J) : List J :=
  s.invoked.map (fun p => p.2.1)

/-! ## Embedding of `src/chap20/hellohello/src/main.rs` -/

/-- Abstract model of one accepted `TcpStream`, as observed by
`handle_connection`: the first line yielded by the buffered reader (`none`
when `lines().next()` yields no line or a read error — either way `unwrap`
panics), the file system seen by `fs::read_to_string`, and whether
`write_all` succeeds. -/
structure ConnInput where
  requestLine : Option String
  fileContents : String → Option String
  writeOk : Bool

/-- Outcome of `handle_connection`: a successful response (recording how
many seconds were slept before answering), or a panic from one of its
`unwrap` calls. -/
inductive HandleResult where
  | ok (sleptSecs : Nat) (response : String)
  | panicked
  deriving DecidableEq

/-- The `match &request_line[..]` of `handle_connection`
(main.rs lines 65-72): seconds slept, status line, filename. -/
def route (request_line : String) : Nat × String × String :=
  if request_line = "GET / HTTP/1.1" then (0, "HTTP/1.1 200 OK", "hello.html")
  else if request_line = "GET /sleep HTTP/1.1" then (5, "HTTP/1.1 200 OK", "hello.html")
  else (0, "HTTP/1.1 404 NOT FOUND", "404.html")

/-- Embedding of `handle_connection` (main.rs lines 60-82): reads the first
request line (`unwrap` panics when absent), routes it, reads the body file
(`unwrap` panics on failure), builds
`"{status_line}\r\nContent-Length: {length}\r\n\r\n{contents}"` with the
byte length of the contents, and writes it (`unwrap` panics on failure). -/
def handle_connection (stream : ConnInput) : HandleResult :=
  match stream.requestLine with
  | none => HandleResult.panicked
  | some request_line =>
    let r := route request_line
    match stream.fileContents r.2.2 with
    | none => HandleResult.panicked
    | some contents =>
      let length := contents.utf8ByteSize
      let response :=
        r.2.1 ++ "\r\nContent-Length: " ++ toString length ++ "\r\n\r\n" ++ contents
      if stream.writeOk then HandleResult.ok r.1 response
      else HandleResult.panicked

/-- The `Mode` enum of main.rs (lines 12-16). -/
inductive Mode where
  | SingleThreaded
  | ThreadPerRequest
  | ThreadPool (n : Nat)
  deriving DecidableEq

/-- `let mode = Mode::ThreadPool(4)` (main.rs line 20). -/
def mainMode : Mode := Mode.ThreadPool 4

/-- Embedding of the `Mode::ThreadPool(num)` branch of `main`
(main.rs lines 33-43) over the finite list of accepted connections:
`ThreadPool::new(num)` once, then for each accepted `stream` one
`pool.execute(|| handle_connection(stream))` — the submitted job is the
zero-argument closure capturing the stream.  Returns the constructed pool
and the list of submitted jobs. -/
def poolBranch (num : Nat) (streams : List ConnInput) :
    Except PoolError (Pool (Unit → HandleResult) × List (Unit → HandleResult)) :=
  match ThreadPool.new (Unit → HandleResult) num with
  | Except.error e => Except.error e
  | Except.ok pool =>
    Except.ok (pool, streams.map (fun stream => fun (_ : Unit) => handle_connection stream))

/-! ## Concrete instances used to exercise the model -/

/-- The worker list produced by `ThreadPool.new` for a positive size. -/
def mkWorkers (n : Nat) : List Worker :=
  (List.range n).map (fun i => { id := i, state := WorkerState.Running })

/-- A failure assignment under which no job fails. -/
def noFail : Nat → Bool := fun _ => false

/-- A failure assignment under which every job fails. -/
def failsAll : Nat → Bool := fun _ => true

/-- A concrete execution of a one-worker pool: fresh state. -/
def traceS0 : Sys Nat := initSys Nat 1

/-- After `submit 5`. -/
def traceS1 : Sys Nat :=
  { queue := { buf := [5], closed := false }, workers := [WStatus.idle],
    submitted := [5], dequeued := [], invoked := [], shutdownDone := false }

/-- After worker 0 dequeues job 5. -/
def traceS2 : Sys Nat :=
  { queue := { buf := [], closed := false }, workers := [WStatus.busy 5],
    submitted := [5], dequeued := [5], invoked := [], shutdownDone := false }

/-- After worker 0 finishes job 5 (successfully). -/
def traceS3 : Sys Nat :=
  { queue := { buf := [], closed := false }, workers := [WStatus.idle],
    submitted := [5], dequeued := [5], invoked := [(0, 5, false)],
    shutdownDone := false }

/-- After shutdown closes the queue. -/
def traceS4 : Sys Nat :=
  { queue := { buf := [], closed := true }, workers := [WStatus.idle],
    submitted := [5], dequeued := [5], invoked := [(0, 5, false)],
    shutdownDone := false }

/-- After worker 0 observes the closed-signal and stops. -/
def traceS5 : Sys Nat :=
  { queue := { buf := [], closed := true }, workers := [WStatus.stopped],
    submitted := [5], dequeued := [5], invoked := [(0, 5, false)],
    shutdownDone := false }

/-- After shutdown returns. -/
def traceS6 : Sys Nat :=
  { queue := { buf := [], closed := true }, workers := [WStatus.stopped],
    submitted := [5], dequeued := [5], invoked := [(0, 5, false)],
    shutdownDone := true }

/-- A concrete well-behaved connection: `GET / HTTP/1.1`, the body file
readable, the write succeeding. -/
def connRoot : ConnInput :=
  { requestLine := some "GET / HTTP/1.1",
    fileContents := fun f => if f = "hello.html" then some "HELLO" else none,
    writeOk := true }

/-! ## Invariants of the interleaving semantics -/

theorem busyOf_replicate_idle {J : Type} (n : Nat) :
    busyOf (List.replicate n (WStatus.idle : WStatus J)) = [] := by
  induction n with
  | zero => rfl
  | succ n ih => simpa [List.replicate, busyOf] using ih

theorem busyOf_set_busy {J : Type} (l : List (WStatus J)) (w : Nat) (j : J)
    (h : l.get? w = some WStatus.idle) :
    (busyOf (l.set w (WStatus.busy j))).Perm (j :: busyOf l) := by
  induction l generalizing w with
  | nil => simp [List.get?] at h
  | cons a t ih =>
    cases w with
    | zero =>
      simp [List.get?] at h
      subst h
      simp [List.set, busyOf]
    | succ w =>
      simp only [List.get?] at h
      have iht := ih w h
      cases a with
      | idle => simpa [List.set, busyOf] using iht
      | stopped => simpa [List.set, busyOf] using iht
      | busy k =>
        simp only [List.set, busyOf]
        exact (iht.cons k).trans (List.Perm.swap j k (busyOf t))

theorem busyOf_set_unbusy {J : Type} (l : List (WStatus J)) (w : Nat) (j : J)
    (h : l.get? w = some (WStatus.busy j)) :
    (busyOf l).Perm (j :: busyOf (l.set w WStatus.idle)) := by
  induction l generalizing w with
  | nil => simp [List.get?] at h
  | cons a t ih =>
    cases w with
    | zero =>
      simp [List.get?] at h
      subst h
      simp [List.set, busyOf]
    | succ w =>
      simp only [List.get?] at h
      have iht := ih w h
      cases a with
      | idle => simpa [List.set, busyOf] using iht
      | stopped => simpa [List.set, busyOf] using iht
      | busy k =>
        simp only [List.set, busyOf]
        exact ((iht.cons k)).trans (List.Perm.swap j k _)

theorem busyOf_set_stopped {J : Type} (l : List (WStatus J)) (w : Nat)
    (h : l.get? w = some WStatus.idle) :
    busyOf (l.set w WStatus.stopped) = busyOf l := by
  induction l generalizing w with
  | nil => simp [List.get?] at h
  | cons a t ih =>
    cases w with
    | zero =>
      simp [List.get?] at h
      subst h
      simp [List.set, busyOf]
    | succ w =>
      simp only [List.get?] at h
      cases a <;> simp [List.set, busyOf, ih w h]

theorem busyOf_all_stopped {J : Type} (l : List (WStatus J))
    (h : ∀ st ∈ l, st = WStatus.stopped) :
    busyOf l = [] := by
  induction l with
  | nil => rfl
  | cons a t ih =>
    have ha := h a (List.mem_cons_self a t)
    subst ha
    exact (by simpa [busyOf] using ih (fun st hst => h st (List.mem_cons_of_mem _ hst)))

/-- Conservation invariant of the interleaving semantics: the dequeued log
is exactly the submitted log minus what is still buffered (FIFO), and the
completed invocations together with the in-flight jobs are a permutation of
the dequeued log. -/
def SysInv {J : Type} (s : Sys J) : Prop :=
  s.submitted = s.dequeued ++ s.queue.buf ∧
  (invokedJobs s ++ busyOf s.workers).Perm s.dequeued

theorem sysInv_init {J : Type} (n : Nat) : SysInv (initSys J n) := by
  refine ⟨rfl, ?_⟩
  simp [initSys, invokedJobs, busyOf_replicate_idle]

theorem enqueue_ok_elim {J : Type} {q q' : JobQueue J} {j : J}
    (h : q.enqueue j = Except.ok q') :
    q.closed = false ∧ q' = { buf := q.buf ++ [j], closed := q.closed } := by
  by_cases hc : q.closed
  · simp [JobQueue.enqueue, hc] at h
  · simp only [JobQueue.enqueue, hc, if_neg] at h
    simp only [Bool.not_eq_true] at hc
    simp [hc] at h ⊢
    exact h.symm

theorem dequeue_job_elim {J : Type} {q q' : JobQueue J} {j : J}
    (h : q.dequeue = some (DequeueResult.job j, q')) :
    q.buf = j :: q'.buf ∧ q'.closed = q.closed := by
  cases hb : q.buf with
  | nil =>
    by_cases hc : q.closed <;> simp [JobQueue.dequeue, hb, hc] at h
  | cons a rest =>
    simp [JobQueue.dequeue, hb] at h
    obtain ⟨rfl, rfl⟩ := h
    exact ⟨rfl, rfl⟩

theorem sysInv_step {J : Type} {fails : J → Bool} {s s' : Sys J}
    (h : Step fails s s') (hi : SysInv s) : SysInv s' := by
  obtain ⟨hfifo, hperm⟩ := hi
  cases h with
  | submit j q' henq =>
    obtain ⟨-, rfl⟩ := enqueue_ok_elim henq
    refine ⟨?_, ?_⟩
    · simp [hfifo, List.append_assoc]
    · simpa [invokedJobs] using hperm
  | dequeueJob w j q' hw hdq =>
    obtain ⟨hbuf, -⟩ := dequeue_job_elim hdq
    refine ⟨?_, ?_⟩
    · simp [hfifo, hbuf, List.append_assoc]
    · have hb := busyOf_set_busy s.workers w j hw
      have h1 : (invokedJobs s ++ busyOf (s.workers.set w (WStatus.busy j))).Perm
          (invokedJobs s ++ (j :: busyOf s.workers)) := hb.append_left _
      have h2 : (invokedJobs s ++ (j :: busyOf s.workers)).Perm
          (j :: (invokedJobs s ++ busyOf s.workers)) := List.perm_middle
      have h3 : (j :: (invokedJobs s ++ busyOf s.workers)).Perm (j :: s.dequeued) :=
        hperm.cons j
      have h4 : (j :: s.dequeued).Perm (s.dequeued ++ [j]) :=
        (List.perm_append_singleton j s.dequeued).symm
      simpa [invokedJobs] using ((h1.trans h2).trans h3).trans h4
  | observeClosed w hw hdq =>
    exact ⟨hfifo, by simpa [invokedJobs, busyOf_set_stopped s.workers w hw] using hperm⟩
  | finish w j hw =>
    refine ⟨hfifo, ?_⟩
    have hb := busyOf_set_unbusy s.workers w j hw
    have h1 : (invokedJobs s ++ ([j] ++ busyOf (s.workers.set w WStatus.idle))).Perm
        (invokedJobs s ++ busyOf s.workers) :=
      List.Perm.append_left _ (by simpa using hb.symm)
    have h2 : ((invokedJobs s ++ [j]) ++ busyOf (s.workers.set w WStatus.idle)).Perm
        s.dequeued := by
      rw [List.append_assoc]
      exact h1.trans hperm
    simpa [invokedJobs] using h2
  | close =>
    exact ⟨by simpa [JobQueue.close] using hfifo, by simpa [invokedJobs] using hperm⟩
  | shutdownReturn hc hst hd =>
    exact ⟨hfifo, by simpa [invokedJobs] using hperm⟩

theorem sysInv_reachable {J : Type} {fails : J → Bool} {n : Nat} {s : Sys J}
    (h : Reachable fails n s) : SysInv s := by
  induction h with
  | refl => exact sysInv_init n
  | tail hab hbc ih => exact sysInv_step hbc ih

/-- Once the queue is closed it stays closed, and no further submission
succeeds: the submitted log is frozen. -/
theorem closed_step {J : Type} {fails : J → Bool} {s s' : Sys J}
    (h : Step fails s s') (hc : s.queue.closed = true) :
    s'.queue.closed = true ∧ s'.submitted = s.submitted := by
  cases h with
  | submit j q' henq =>
    obtain ⟨hco, -⟩ := enqueue_ok_elim henq
    rw [hc] at hco
    cases hco
  | dequeueJob w j q' hw hdq =>
    obtain ⟨-, hcl⟩ := dequeue_job_elim hdq
    exact ⟨by rw [hcl, hc], rfl⟩
  | observeClosed w hw hdq => exact ⟨hc, rfl⟩
  | finish w j hw => exact ⟨hc, rfl⟩
  | close => exact ⟨rfl, rfl⟩
  | shutdownReturn hcl hst hd => exact ⟨hc, rfl⟩

/-- Multi-step version of `closed_step`. -/
theorem closed_steps {J : Type} {fails : J → Bool} {s s' : Sys J}
    (h : Relation.ReflTransGen (Step fails) s s') (hc : s.queue.closed = true) :
    s'.queue.closed = true ∧ s'.submitted = s.submitted := by
  induction h with
  | refl => exact ⟨hc, rfl⟩
  | tail hab hbc ih =>
    obtain ⟨h1, h2⟩ := ih
    obtain ⟨h3, h4⟩ := closed_step hbc h1
    exact ⟨h3, h4.trans h2⟩

/-- Every job whose invocation has completed was first submitted. -/
theorem invoked_sub_submitted {J : Type} {fails : J → Bool} {n : Nat} {s : Sys J}
    (h : Reachable fails n s) {j : J} (hj : j ∈ invokedJobs s) : j ∈ s.submitted := by
  obtain ⟨hfifo, hperm⟩ := sysInv_reachable h
  have hd : j ∈ s.dequeued := hperm.mem_iff.mp (List.mem_append_left _ hj)
  rw [hfifo]
  exact List.mem_append_left _ hd

/-! ## The concrete trace is a run of the semantics -/

theorem trace_step01 : Step noFail traceS0 traceS1 :=
  Step.submit traceS0 5 { buf := [5], closed := false } rfl

theorem trace_step12 : Step noFail traceS1 traceS2 :=
  Step.dequeueJob traceS1 0 5 { buf := [], closed := false } rfl rfl

theorem trace_step23 : Step noFail traceS2 traceS3 :=
  Step.finish traceS2 0 5 rfl

theorem trace_step34 : Step noFail traceS3 traceS4 :=
  Step.close traceS3

theorem trace_step45 : Step noFail traceS4 traceS5 :=
  Step.observeClosed traceS4 0 rfl rfl

theorem trace_step56 : Step noFail traceS5 traceS6 :=
  Step.shutdownReturn traceS5 rfl (by decide) rfl

theorem trace_reach3 : Reachable noFail 1 traceS3 :=
  Relation.ReflTransGen.tail
    (Relation.ReflTransGen.tail
      (Relation.ReflTransGen.tail Relation.ReflTransGen.refl trace_step01)
      trace_step12)
    trace_step23

theorem trace_reach4 : Reachable noFail 1 traceS4 :=
  Relation.ReflTransGen.tail trace_reach3 trace_step34

theorem trace_steps45 : Relation.ReflTransGen (Step noFail) traceS4 traceS5 :=
  Relation.ReflTransGen.tail Relation.ReflTransGen.refl trace_step45

/-! ## Claim theorems -/

/-- Claim C1: for every pool of N workers and any interleaving of the
submitting thread and the worker threads (under any failure assignment),
once the queue is drained and no worker is mid-job, the multiset of
completed job invocations is exactly the multiset of submitted jobs: M
submissions yield exactly M invocations, each submitted job invoked exactly
once (each invocation is performed by the single worker recorded for it). -/
theorem submitted_jobs_invoked_exactly_once {J : Type} [DecidableEq J]
    (fails : J → Bool) (n : Nat) (s : Sys J)
    (hr : Reachable fails n s) (hq : s.queue.buf = []) (hb : busyOf s.workers = []) :
    (invokedJobs s).Perm s.submitted ∧
    (invokedJobs s).length = s.submitted.length ∧
    ∀ j : J, (invokedJobs s).count j = s.submitted.count j := by
  obtain ⟨hfifo, hperm⟩ := sysInv_reachable hr
  have h1 : (invokedJobs s).Perm s.dequeued := by simpa [hb] using hperm
  have h2 : s.submitted = s.dequeued := by simpa [hq] using hfifo
  have hp : (invokedJobs s).Perm s.submitted := h2 ▸ h1
  exact ⟨hp, hp.length_eq, fun j => hp.count_eq j⟩

theorem submitted_jobs_invoked_exactly_once_witness :
    traceS3.queue.buf = [] ∧ busyOf traceS3.workers = [] ∧
    (invokedJobs traceS3).Perm traceS3.submitted ∧
    (invokedJobs traceS3).length = traceS3.submitted.length ∧
    (invokedJobs traceS3).count 5 = traceS3.submitted.count 5 :=
  ⟨rfl, rfl,
   (submitted_jobs_invoked_exactly_once noFail 1 traceS3 trace_reach3 rfl rfl).1,
   (submitted_jobs_invoked_exactly_once noFail 1 traceS3 trace_reach3 rfl rfl).2.1,
   (submitted_jobs_invoked_exactly_once noFail 1 traceS3 trace_reach3 rfl rfl).2.2 5⟩

/-- Claim C2: the queue delivers jobs in submission order (single producer):
in every reachable state the dequeued log is the initial segment of the
submitted log (the rest still buffered in order), so position i of the
delivered sequence is the i-th submitted job — a job enqueued earlier is
dequeued earlier. -/
theorem queue_delivery_fifo {J : Type} (fails : J → Bool) (n : Nat) (s : Sys J)
    (hr : Reachable fails n s) :
    s.submitted = s.dequeued ++ s.queue.buf ∧
    ∀ i, i < s.dequeued.length → s.submitted[i]? = s.dequeued[i]? := by
  obtain ⟨hfifo, -⟩ := sysInv_reachable hr
  refine ⟨hfifo, fun i hi => ?_⟩
  rw [hfifo]
  exact List.getElem?_append_left hi

theorem queue_delivery_fifo_witness :
    traceS2.submitted = traceS2.dequeued ++ traceS2.queue.buf ∧
    traceS2.submitted[0]? = traceS2.dequeued[0]? :=
  ⟨(queue_delivery_fifo noFail 1 traceS2
      (Relation.ReflTransGen.tail
        (Relation.ReflTransGen.tail Relation.ReflTransGen.refl trace_step01)
        trace_step12)).1,
   (queue_delivery_fifo noFail 1 traceS2
      (Relation.ReflTransGen.tail
        (Relation.ReflTransGen.tail Relation.ReflTransGen.refl trace_step01)
        trace_step12)).2 0 (by decide)⟩

/-- Claim C3: `new(0)` fails at construction with `InvalidConfiguration`
(no pool, hence no worker, is produced); `new(n)` for `n > 0` succeeds and
yields a pool of exactly `n` workers, each in the Running state, all sharing
the single fresh queue (empty and open). -/
theorem pool_new_validates_size (J : Type) (n : Nat) :
    ThreadPool.new J 0 = Except.error PoolError.InvalidConfiguration ∧
    (0 < n →
      ThreadPool.new J n =
        Except.ok { workers := mkWorkers n, queue := { buf := [], closed := false } } ∧
      (mkWorkers n).length = n ∧
      ∀ w ∈ mkWorkers n, w.state = WorkerState.Running) := by
  refine ⟨rfl, fun hn => ⟨?_, ?_, ?_⟩⟩
  · have hne : n ≠ 0 := Nat.pos_iff_ne_zero.mp hn
    simp [ThreadPool.new, hne, mkWorkers]
  · simp [mkWorkers]
  · intro w hw
    simp only [mkWorkers, List.mem_map] at hw
    obtain ⟨i, -, rfl⟩ := hw
    rfl

theorem pool_new_validates_size_witness :
    (0:Nat) < 3 ∧
    ThreadPool.new Nat 3 =
      Except.ok { workers := mkWorkers 3, queue := { buf := [], closed := false } } ∧
    (mkWorkers 3).length = 3 :=
  ⟨by decide,
   ((pool_new_validates_size Nat 3).2 (by decide)).1,
   ((pool_new_validates_size Nat 3).2 (by decide)).2.1⟩

/-- Claim C4: once the queue is closed, any attempted submission of a fresh
job fails with the `Closed` error (reported to the caller), and that job is
never invoked in any later state: it never enters the submitted log, and
every invoked job comes from the submitted log. -/
theorem submit_after_close_rejected {J : Type} (fails : J → Bool) (n : Nat)
    (s s' : Sys J) (j : J)
    (hr : Reachable fails n s) (hc : s.queue.closed = true)
    (hs : Relation.ReflTransGen (Step fails) s s') (hj : j ∉ s.submitted) :
    s.queue.enqueue j = Except.error QueueError.Closed ∧
    j ∉ s'.submitted ∧ j ∉ invokedJobs s' := by
  have h1 : s.queue.enqueue j = Except.error QueueError.Closed := by
    simp [JobQueue.enqueue, hc]
  obtain ⟨-, hsub⟩ := closed_steps hs hc
  have hr' : Reachable fails n s' := hr.trans hs
  refine ⟨h1, by rw [hsub]; exact hj, fun hin => ?_⟩
  have := invoked_sub_submitted hr' hin
  rw [hsub] at this
  exact hj this

theorem submit_after_close_rejected_witness :
    traceS4.queue.closed = true ∧ (7:Nat) ∉ traceS4.submitted ∧
    traceS4.queue.enqueue 7 = Except.error QueueError.Closed ∧
    (7:Nat) ∉ traceS5.submitted ∧ (7:Nat) ∉ invokedJobs traceS5 :=
  ⟨rfl, by decide,
   (submit_after_close_rejected noFail 1 traceS4 traceS5 7 trace_reach4 rfl
      trace_steps45 (by decide)).1,
   (submit_after_close_rejected noFail 1 traceS4 traceS5 7 trace_reach4 rfl
      trace_steps45 (by decide)).2.1,
   (submit_after_close_rejected noFail 1 traceS4 traceS5 7 trace_reach4 rfl
      trace_steps45 (by decide)).2.2⟩

/-- Claim C5: the step that makes shutdown return is possible only from a
state where the queue has already been closed and every worker has observed
the closed-signal and stopped — in particular no worker is still executing
an in-flight job when shutdown returns. -/
theorem shutdown_waits_for_all_workers {J : Type} (fails : J → Bool) (s s' : Sys J)
    (h : Step fails s s') (hnot : s.shutdownDone = false) (hdone : s'.shutdownDone = true) :
    s.queue.closed = true ∧ (∀ st ∈ s.workers, st = WStatus.stopped) ∧
    busyOf s.workers = [] := by
  cases h with
  | submit j q' henq => simp [hnot] at hdone
  | dequeueJob w j q' hw hdq => simp [hnot] at hdone
  | observeClosed w hw hdq => simp [hnot] at hdone
  | finish w j hw => simp [hnot] at hdone
  | close => simp [hnot] at hdone
  | shutdownReturn hc hst hd => exact ⟨hc, hst, busyOf_all_stopped _ hst⟩

theorem shutdown_waits_for_all_workers_witness :
    traceS5.shutdownDone = false ∧ traceS6.shutdownDone = true ∧
    traceS5.queue.closed = true ∧ busyOf traceS5.workers = [] :=
  ⟨rfl, rfl,
   (shutdown_waits_for_all_workers noFail traceS5 traceS6 trace_step56 rfl rfl).1,
   (shutdown_waits_for_all_workers noFail traceS5 traceS6 trace_step56 rfl rfl).2.2⟩

/-- Claim C6: closing the queue loses no queued job — the buffer is
untouched — and on the closed queue `dequeue` still delivers the front job
while the buffer is nonempty, returns the closed-signal once it is empty,
and never blocks (is never `none`). -/
theorem close_drains_then_signals {J : Type} (q : JobQueue J) (j : J) (rest : List J) :
    (q.close).buf = q.buf ∧ (q.close).closed = true ∧
    (q.buf = j :: rest →
      q.close.dequeue = some (DequeueResult.job j, { buf := rest, closed := true })) ∧
    (q.buf = [] → q.close.dequeue = some (DequeueResult.closedSignal, q.close)) ∧
    q.close.dequeue ≠ none := by
  refine ⟨rfl, rfl, ?_, ?_, ?_⟩
  · intro hb
    simp [JobQueue.close, JobQueue.dequeue, hb]
  · intro hb
    simp [JobQueue.close, JobQueue.dequeue, hb]
  · cases hb : q.buf with
    | nil => simp [JobQueue.close, JobQueue.dequeue, hb]
    | cons a t => simp [JobQueue.close, JobQueue.dequeue, hb]

theorem close_drains_then_signals_witness :
    ({ buf := [8], closed := false } : JobQueue Nat).close.dequeue
      = some (DequeueResult.job 8, { buf := [], closed := true }) ∧
    ({ buf := [], closed := false } : JobQueue Nat).close.dequeue
      = some (DequeueResult.closedSignal, { buf := [], closed := true }) ∧
    ({ buf := [8], closed := false } : JobQueue Nat).close.dequeue ≠ none :=
  ⟨(close_drains_then_signals { buf := [8], closed := false } 8 []).2.2.1 rfl,
   (close_drains_then_signals { buf := [], closed := false } 0 []).2.2.2.1 rfl,
   (close_drains_then_signals { buf := [8], closed := false } 8 []).2.2.2.2⟩

theorem lt_length_of_get?_some {α : Type} {l : List α} {w : Nat} {a : α}
    (h : l.get? w = some a) : w < l.length := by
  induction l generalizing w with
  | nil => simp [List.get?] at h
  | cons b t ih =>
    cases w with
    | zero => simp
    | succ w =>
      have := ih (by simpa [List.get?] using h)
      simpa using this

theorem get?_set_self {α : Type} (l : List α) (w : Nat) (a : α)
    (h : w < l.length) : (l.set w a).get? w = some a := by
  induction l generalizing w with
  | nil => simp at h
  | cons b t ih =>
    cases w with
    | zero => rfl
    | succ w =>
      have := ih w (by simpa using h)
      simpa [List.set, List.get?] using this

theorem get?_set_other {α : Type} (l : List α) (v w : Nat) (a : α)
    (h : v ≠ w) : (l.set w a).get? v = l.get? v := by
  induction l generalizing v w with
  | nil => rfl
  | cons b t ih =>
    cases w with
    | zero =>
      cases v with
      | zero => exact absurd rfl h
      | succ v => rfl
    | succ w =>
      cases v with
      | zero => rfl
      | succ v =>
        have := ih v w (fun hh => h (by rw [hh]))
        simpa [List.set, List.get?] using this

/-- Claim C7: a job invocation that fails is contained at the worker's
dispatch boundary: whatever the failure assignment says about the job, the
worker's completion step is enabled and returns the worker to the idle
(Running, back-to-dequeue) state — never to Stopped — records the
invocation with its failure flag, and leaves the queue, the submitted log
and every other worker untouched, so subsequently submitted jobs are still
dispatched. -/
theorem job_failure_contained {J : Type} (fails : J → Bool) (s : Sys J)
    (w : Nat) (j : J)
    (hw : s.workers.get? w = some (WStatus.busy j)) :
    Step fails s { s with workers := s.workers.set w WStatus.idle,
                          invoked := s.invoked ++ [(w, j, fails j)] } ∧
    (s.workers.set w WStatus.idle).get? w = some WStatus.idle ∧
    ∀ v, v ≠ w → (s.workers.set w WStatus.idle).get? v = s.workers.get? v := by
  refine ⟨Step.finish s w j hw, ?_, ?_⟩
  · exact get?_set_self s.workers w WStatus.idle (lt_length_of_get?_some hw)
  · intro v hv
    exact get?_set_other s.workers v w WStatus.idle hv

theorem job_failure_contained_witness :
    traceS2.workers.get? 0 = some (WStatus.busy 5) ∧ failsAll 5 = true ∧
    Step failsAll traceS2
      { traceS2 with workers := traceS2.workers.set 0 WStatus.idle,
                     invoked := traceS2.invoked ++ [(0, 5, failsAll 5)] } ∧
    (traceS2.workers.set 0 WStatus.idle).get? 0 = some WStatus.idle :=
  ⟨rfl, rfl,
   (job_failure_contained failsAll traceS2 0 5 rfl).1,
   (job_failure_contained failsAll traceS2 0 5 rfl).2.1⟩

/-- Claim C8: on an open queue `enqueue` always succeeds immediately (the
queue is unbounded, so the submitting thread never waits), the producer's
submit step is always enabled, and the only blocking point in the model is
`dequeue`, which blocks exactly while the queue is empty and open. -/
theorem submit_never_blocks {J : Type} (fails : J → Bool) (s : Sys J) (j : J)
    (hopen : s.queue.closed = false) :
    s.queue.enqueue j = Except.ok { buf := s.queue.buf ++ [j], closed := false } ∧
    Step fails s { s with queue := { buf := s.queue.buf ++ [j], closed := false },
                          submitted := s.submitted ++ [j] } ∧
    ∀ q : JobQueue J, (q.dequeue = none ↔ (q.buf = [] ∧ q.closed = false)) := by
  have h1 : s.queue.enqueue j
      = Except.ok { buf := s.queue.buf ++ [j], closed := false } := by
    simp [JobQueue.enqueue, hopen]
  refine ⟨h1, Step.submit s j _ h1, ?_⟩
  intro q
  constructor
  · intro hnone
    cases hb : q.buf with
    | cons a t => simp [JobQueue.dequeue, hb] at hnone
    | nil =>
      refine ⟨rfl, ?_⟩
      by_cases hc : q.closed
      · simp [JobQueue.dequeue, hb, hc] at hnone
      · simpa using hc
  · rintro ⟨hb, hc⟩
    simp [JobQueue.dequeue, hb, hc]

theorem submit_never_blocks_witness :
    traceS0.queue.closed = false ∧
    traceS0.queue.enqueue 9 = Except.ok { buf := [9], closed := false } ∧
    (({ buf := [], closed := false } : JobQueue Nat).dequeue = none ↔
      (([] : List Nat) = [] ∧ false = false)) :=
  ⟨rfl,
   (submit_never_blocks noFail traceS0 9 rfl).1,
   (submit_never_blocks noFail traceS0 9 rfl).2.2 { buf := [], closed := false }⟩

/-- Claim C9: in thread-pool mode the application fixes the worker count at
4 (`Mode::ThreadPool(4)`), constructs exactly one pool at startup via
`ThreadPool::new`, and submits exactly one job per accepted connection, each
job being the zero-argument closure capturing that connection and invoking
`handle_connection` on it. -/
theorem main_pool_usage (streams : List ConnInput) :
    mainMode = Mode.ThreadPool 4 ∧
    poolBranch 4 streams = Except.ok
      ({ workers := mkWorkers 4, queue := { buf := [], closed := false } },
        streams.map (fun stream => fun (_ : Unit) => handle_connection stream)) ∧
    (streams.map (fun stream => fun (_ : Unit) => handle_connection stream)).length
      = streams.length ∧
    ∀ i : Nat, (streams.map (fun stream => fun (_ : Unit) => handle_connection stream))[i]?
      = streams[i]?.map (fun stream => fun (_ : Unit) => handle_connection stream) := by
  refine ⟨rfl, ?_, by simp, fun i => ?_⟩
  · simp [poolBranch, ThreadPool.new, mkWorkers]
  · simp [List.getElem?_map]

/-- Claim C10: `handle_connection` as a function of the incoming stream —
`GET / HTTP/1.1` yields the 200 status with the contents of `hello.html`
(no sleep); `GET /sleep HTTP/1.1` yields the same 200 response after a
5-second sleep; every other request line yields the 404 status with the
contents of `404.html`; and it panics when the connection yields no request
line, when the body file cannot be read, or when the write fails. -/
theorem handle_connection_behaviour (conn : ConnInput) (line hello notFound : String) :
    (conn.requestLine = some "GET / HTTP/1.1" →
      conn.fileContents "hello.html" = some hello → conn.writeOk = true →
      handle_connection conn = HandleResult.ok 0
        ("HTTP/1.1 200 OK" ++ "\r\nContent-Length: "
          ++ toString hello.utf8ByteSize ++ "\r\n\r\n" ++ hello)) ∧
    (conn.requestLine = some "GET /sleep HTTP/1.1" →
      conn.fileContents "hello.html" = some hello → conn.writeOk = true →
      handle_connection conn = HandleResult.ok 5
        ("HTTP/1.1 200 OK" ++ "\r\nContent-Length: "
          ++ toString hello.utf8ByteSize ++ "\r\n\r\n" ++ hello)) ∧
    (conn.requestLine = some line → line ≠ "GET / HTTP/1.1" →
      line ≠ "GET /sleep HTTP/1.1" →
      conn.fileContents "404.html" = some notFound → conn.writeOk = true →
      handle_connection conn = HandleResult.ok 0
        ("HTTP/1.1 404 NOT FOUND" ++ "\r\nContent-Length: "
          ++ toString notFound.utf8ByteSize ++ "\r\n\r\n" ++ notFound)) ∧
    (conn.requestLine = none → handle_connection conn = HandleResult.panicked) ∧
    (∀ l, conn.requestLine = some l → conn.fileContents (route l).2.2 = none →
      handle_connection conn = HandleResult.panicked) ∧
    (∀ l c, conn.requestLine = some l → conn.fileContents (route l).2.2 = some c →
      conn.writeOk = false → handle_connection conn = HandleResult.panicked) := by
  refine ⟨?_, ?_, ?_, ?_, ?_, ?_⟩
  · intro hl hf hwr
    simp [handle_connection, hl, route, hf, hwr]
  · intro hl hf hwr
    simp [handle_connection, hl, route, hf, hwr]
  · intro hl h1 h2 hf hwr
    simp [handle_connection, hl, route, h1, h2, hf, hwr]
  · intro hl
    simp [handle_connection, hl]
  · intro l hl hf
    simp [handle_connection, hl, hf]
  · intro l c hl hf hwr
    simp [handle_connection, hl, hf, hwr]

theorem handle_connection_behaviour_witness :
    connRoot.requestLine = some "GET / HTTP/1.1" ∧
    connRoot.fileContents "hello.html" = some "HELLO" ∧
    connRoot.writeOk = true ∧
    handle_connection connRoot = HandleResult.ok 0
      ("HTTP/1.1 200 OK" ++ "\r\nContent-Length: "
        ++ toString ("HELLO" : String).utf8ByteSize ++ "\r\n\r\n" ++ "HELLO") :=
  ⟨rfl, rfl, rfl,
   (handle_connection_behaviour connRoot "" "HELLO" "").1 rfl rfl rfl⟩

end Hellohello
